import Mathlib

/-!
Verification of the rrweb player's event pipeline, timestamp utilities and
playback/audio-sync state machine, shallowly embedded from the TypeScript
sources (`src/lib/config.ts` (api section), `src/unnamed/part_001` (callSync),
`src/components/Player.tsx`).

JavaScript values flowing through the pipeline are modelled by the `Json`
inductive below; JS numbers appear in this code only as integer tags,
timestamps and millisecond counts, so they are modelled as `Int`.
External collaborators (`pako.inflate`, the host `JSON.parse`) are passed
in as oracle parameters, so every theorem quantifies over their behaviour.
-/

namespace RrwebPlayer

/-- Model of a JavaScript/JSON value (numbers restricted to integers,
which is all this pipeline manipulates). `null` also stands for
`undefined` where only truthiness/absence matters. -/
inductive Json where
  | null : Json
  | bool : Bool → Json
  | num : Int → Json
  | str : String → Json
  | arr : List Json → Json
  | obj : List (String × Json) → Json
deriving Repr

mutual

/-- Decidable equality for `Json` (the derive handler does not support the
nested `List` occurrences, so it is spelled out). -/
def Json.decEq : (a b : Json) → Decidable (a = b)
  | .null, .null => isTrue rfl
  | .bool x, .bool y =>
    if h : x = y then isTrue (congrArg Json.bool h)
    else isFalse (fun hh => h (Json.bool.inj hh))
  | .num x, .num y =>
    if h : x = y then isTrue (congrArg Json.num h)
    else isFalse (fun hh => h (Json.num.inj hh))
  | .str x, .str y =>
    if h : x = y then isTrue (congrArg Json.str h)
    else isFalse (fun hh => h (Json.str.inj hh))
  | .arr xs, .arr ys =>
    match Json.decEqList xs ys with
    | isTrue h => isTrue (congrArg Json.arr h)
    | isFalse h => isFalse (fun hh => h (Json.arr.inj hh))
  | .obj xs, .obj ys =>
    match Json.decEqFields xs ys with
    | isTrue h => isTrue (congrArg Json.obj h)
    | isFalse h => isFalse (fun hh => h (Json.obj.inj hh))
  | .null, .bool _ => isFalse (fun h => Json.noConfusion h)
  | .null, .num _ => isFalse (fun h => Json.noConfusion h)
  | .null, .str _ => isFalse (fun h => Json.noConfusion h)
  | .null, .arr _ => isFalse (fun h => Json.noConfusion h)
  | .null, .obj _ => isFalse (fun h => Json.noConfusion h)
  | .bool _, .null => isFalse (fun h => Json.noConfusion h)
  | .bool _, .num _ => isFalse (fun h => Json.noConfusion h)
  | .bool _, .str _ => isFalse (fun h => Json.noConfusion h)
  | .bool _, .arr _ => isFalse (fun h => Json.noConfusion h)
  | .bool _, .obj _ => isFalse (fun h => Json.noConfusion h)
  | .num _, .null => isFalse (fun h => Json.noConfusion h)
  | .num _, .bool _ => isFalse (fun h => Json.noConfusion h)
  | .num _, .str _ => isFalse (fun h => Json.noConfusion h)
  | .num _, .arr _ => isFalse (fun h => Json.noConfusion h)
  | .num _, .obj _ => isFalse (fun h => Json.noConfusion h)
  | .str _, .null => isFalse (fun h => Json.noConfusion h)
  | .str _, .bool _ => isFalse (fun h => Json.noConfusion h)
  | .str _, .num _ => isFalse (fun h => Json.noConfusion h)
  | .str _, .arr _ => isFalse (fun h => Json.noConfusion h)
  | .str _, .obj _ => isFalse (fun h => Json.noConfusion h)
  | .arr _, .null => isFalse (fun h => Json.noConfusion h)
  | .arr _, .bool _ => isFalse (fun h => Json.noConfusion h)
  | .arr _, .num _ => isFalse (fun h => Json.noConfusion h)
  | .arr _, .str _ => isFalse (fun h => Json.noConfusion h)
  | .arr _, .obj _ => isFalse (fun h => Json.noConfusion h)
  | .obj _, .null => isFalse (fun h => Json.noConfusion h)
  | .obj _, .bool _ => isFalse (fun h => Json.noConfusion h)
  | .obj _, .num _ => isFalse (fun h => Json.noConfusion h)
  | .obj _, .str _ => isFalse (fun h => Json.noConfusion h)
  | .obj _, .arr _ => isFalse (fun h => Json.noConfusion h)

/-- Decidable equality for lists of `Json`. -/
def Json.decEqList : (xs ys : List Json) → Decidable (xs = ys)
  | [], [] => isTrue rfl
  | [], _ :: _ => isFalse (fun h => List.noConfusion h)
  | _ :: _, [] => isFalse (fun h => List.noConfusion h)
  | x :: xs, y :: ys =>
    match Json.decEq x y with
    | isFalse h => isFalse (fun hh => h (List.cons.inj hh).1)
    | isTrue h1 =>
      match Json.decEqList xs ys with
      | isTrue h2 => isTrue (by rw [h1, h2])
      | isFalse h => isFalse (fun hh => h (List.cons.inj hh).2)

/-- Decidable equality for `Json` object field lists. -/
def Json.decEqFields : (xs ys : List (String × Json)) → Decidable (xs = ys)
  | [], [] => isTrue rfl
  | [], _ :: _ => isFalse (fun h => List.noConfusion h)
  | _ :: _, [] => isFalse (fun h => List.noConfusion h)
  | (k1, v1) :: xs, (k2, v2) :: ys =>
    if hk : k1 = k2 then
      match Json.decEq v1 v2 with
      | isFalse h => isFalse (fun hh => h (congrArg Prod.snd (List.cons.inj hh).1))
      | isTrue h1 =>
        match Json.decEqFields xs ys with
        | isTrue h2 => isTrue (by rw [hk, h1, h2])
        | isFalse h => isFalse (fun hh => h (List.cons.inj hh).2)
    else
      isFalse (fun hh => hk (congrArg Prod.fst (List.cons.inj hh).1))

end

instance : DecidableEq Json := Json.decEq

/-- First-match association-list lookup, modelling JS property access on a
plain object (keys are unique in objects built by the code). -/
def jlookup : List (String × Json) → String → Option Json
  | [], _ => none
  | (k, v) :: rest, key => if k = key then some v else jlookup rest key

/-- Model of JS property access `v[key]` (non-objects yield `undefined`). -/
def Json.get : Json → String → Option Json
  | .obj fs, key => jlookup fs key
  | _, _ => none

/-- Model of JS property assignment `o[key] = v`: an existing key (unique
in a JS object) is updated in place, a fresh key is appended (JS
insertion order). -/
def jset : List (String × Json) → String → Json → List (String × Json)
  | [], key, v => [(key, v)]
  | (k, w) :: rest, key, v =>
    if k = key then (key, v) :: rest else (k, w) :: jset rest key v

/-- Model of JS `delete o[key]`. -/
def jdel (fs : List (String × Json)) (key : String) : List (String × Json) :=
  fs.filter (fun p => p.1 ≠ key)

/-- JS truthiness of a possibly-absent value (`undefined`/`null`, `false`,
`0` and `""` are falsy; objects and arrays are always truthy). -/
def jsTruthy : Option Json → Bool
  | none => false
  | some .null => false
  | some (.bool b) => b
  | some (.num n) => n ≠ 0
  | some (.str s) => s ≠ ""
  | some (.arr _) => true
  | some (.obj _) => true

/-- `isCompressed` from the api module: the string has at least two
characters and their character codes are the gzip magic `0x1F 0x8B`.
(Wire payloads use the binary-string convention, one byte per character,
so the character code is the raw byte.) -/
def isCompressed (s : String) : Bool :=
  match s.data with
  | c0 :: c1 :: _ => c0.toNat = 0x1F && c1.toNat = 0x8B
  | _ => false

/-- The byte decode inside `decompressField` / the FullSnapshot branch:
`charCodeAt(i) & 0xFF` for each position. -/
def byteDecode (s : String) : List Nat :=
  s.data.map (fun c => c.toNat % 256)

/-- `decompressField` from the api module, with `pako.inflate` and the host
`JSON.parse` passed as oracles (`none` models a thrown exception). Any
failure, or a non-array parse result, yields the empty array. -/
def decompressField (inflate : List Nat → Option String)
    (jsonParse : String → Option Json) (compressed : String) : Json :=
  match inflate (byteDecode compressed) with
  | none => .arr []
  | some txt =>
    match jsonParse txt with
    | none => .arr []
    | some (.arr xs) => .arr xs
    | some _ => .arr []

/-- The four mutation sub-list keys, in the order the code iterates them. -/
def mutationFields : List String := ["removes", "adds", "texts", "attributes"]

/-- The first half of `processMutationEvent`'s field loop: when the field
holds a truthy (non-empty) string, replace it by its decompression (gzip
magic) or its plain JSON parse, leaving it alone when the parse throws. -/
def parseStringField (inflate : List Nat → Option String)
    (jsonParse : String → Option Json)
    (data : List (String × Json)) (field : String) : List (String × Json) :=
  match jlookup data field with
  | some (.str s) =>
    if s ≠ "" then
      if isCompressed s then
        jset data field (decompressField inflate jsonParse s)
      else
        match jsonParse s with
        | some p => jset data field p
        | none => data
    else data
  | _ => data

/-- The second half of the field loop (`// Ensure it's an array`): coerce
anything that is not an array — including an absent field — to the empty
array. -/
def ensureArrayField (data : List (String × Json)) (field : String) :
    List (String × Json) :=
  match jlookup data field with
  | some (.arr _) => data
  | _ => jset data field (.arr [])

/-- One iteration of `processMutationEvent`'s field loop on the (copied)
`data` object. -/
def processField (inflate : List Nat → Option String)
    (jsonParse : String → Option Json)
    (data : List (String × Json)) (field : String) : List (String × Json) :=
  ensureArrayField (parseStringField inflate jsonParse data field) field

/-- `processMutationEvent` from the api module. The guard is the code's
strict comparison `event.type !== 3` (so a numeric tag only) together with
a truthy `event.data`. (The JS spread of a truthy non-object `data` is not
modelled field-by-field; the claims only concern object payloads.) -/
def processMutationEvent (inflate : List Nat → Option String)
    (jsonParse : String → Option Json) (event : Json) : Json :=
  match event with
  | .obj fs =>
    if jlookup fs "type" ≠ some (.num 3) then event
    else if ¬ jsTruthy (jlookup fs "data") then event
    else
      let dataFields :=
        match jlookup fs "data" with
        | some (.obj ds) => ds
        | _ => []
      let ds' := mutationFields.foldl (processField inflate jsonParse) dataFields
      .obj (jset fs "data" (.obj ds'))
  | _ => event

/-- The per-source flattening step of `fetchSessionData`: an array is
spliced in, an object contributes its `events` array, else its `data`
array, else itself; any other value is pushed as-is. -/
def flattenChunk (data : Json) : List Json :=
  match data with
  | .arr xs => xs
  | .obj fs =>
    match jlookup fs "events" with
    | some (.arr es) => es
    | _ =>
      match jlookup fs "data" with
      | some (.arr ds) => ds
      | _ => [data]
  | other => [other]

/-- Does a JS value have a `type` own-property (`'type' in eventObject`)?
Only plain objects can, in the values this pipeline builds. -/
def hasTypeKey : Json → Bool
  | .obj fs => fs.any (fun p => p.1 = "type")
  | _ => false

/-- The tuple-unwrapping step of `fetchSessionData`: a falsy item is
skipped; an array of length ≥ 2 stands for `[sessionId, eventObject]` and
contributes its second element if that is a truthy object with a `type`
key; a bare truthy object with a `type` key is kept; everything else is
silently dropped. -/
def extractEvent : Json → Option Json
  | .arr xs =>
    if 2 ≤ xs.length then
      match xs[1]? with
      | some e => if hasTypeKey e then some e else none
      | none => none
    else none
  | .obj fs => if fs.any (fun p => p.1 = "type") then some (.obj fs) else none
  | _ => none

/-- Is a parsed value a truthy JS object (`parsed && typeof parsed ===
'object'`)? Arrays count. -/
def isObjectLike : Json → Bool
  | .obj _ => true
  | .arr _ => true
  | _ => false

/-- The per-event body of `fetchSessionData`'s processing loop: strip the
service fields `cv` and `delay`, dispatch kind-3 events (numeric or
numeric-string tag) to `processMutationEvent`, and inflate a compressed
string `data` on kind-2 events (keeping the raw string on any failure or
non-object parse). -/
def processEvent (inflate : List Nat → Option String)
    (jsonParse : String → Option Json) (event : Json) : Json :=
  match event with
  | .obj fs =>
    let cleaned := jdel (jdel fs "cv") "delay"
    let t := jlookup cleaned "type"
    if t = some (.num 3) ∨ t = some (.str "3") then
      processMutationEvent inflate jsonParse (.obj cleaned)
    else if (t = some (.num 2) ∨ t = some (.str "2")) ∧ jsTruthy (jlookup cleaned "data") then
      match jlookup cleaned "data" with
      | some (.str s) =>
        if isCompressed s then
          match inflate (byteDecode s) with
          | some txt =>
            match jsonParse txt with
            | some parsed =>
              if isObjectLike parsed then .obj (jset cleaned "data" parsed) else .obj cleaned
            | none => .obj cleaned
          | none => .obj cleaned
        else .obj cleaned
      | _ => .obj cleaned
    else .obj cleaned
  | _ => event

/-- The code's FullSnapshot presence check over processed events
(`e?.type === 2 || e?.type === '2'`). -/
def hasFullState (events : List Json) : Bool :=
  events.any (fun e => e.get "type" = some (.num 2) || e.get "type" = some (.str "2"))

/-- The only failure `fetchSessionData` itself raises after the chunks are
in hand: an empty source list. -/
inductive AssembleError where
  | noSources : AssembleError
deriving Repr, DecidableEq

/-- `fetchSessionData` from the api module, starting from the list of
per-source decoded payloads (the network fetches are external
collaborators): fail on an empty source list, otherwise flatten, unwrap
tuples, and process every event. A missing FullSnapshot is only logged
(`console.error`); the processed sequence is returned regardless. -/
def fetchSessionData (inflate : List Nat → Option String)
    (jsonParse : String → Option Json) (chunks : List Json) :
    Except AssembleError (List Json) :=
  if chunks.length = 0 then .error .noSources
  else
    let snapshotData := (chunks.map flattenChunk).flatten
    let extracted := snapshotData.filterMap extractEvent
    .ok (extracted.map (processEvent inflate jsonParse))

/-- JS `String.prototype.trim` on a line (the code only splits on `'\n'`,
so ASCII whitespace is what can occur at line ends). -/
def jsTrim (l : List Char) : List Char :=
  ((l.dropWhile Char.isWhitespace).reverse.dropWhile Char.isWhitespace).reverse

/-- JS `text.split('\n')`. -/
def splitNewlines (text : List Char) : List (List Char) :=
  match text with
  | [] => [[]]
  | c :: rest =>
    let tails := splitNewlines rest
    if c = '\n' then [] :: tails
    else
      match tails with
      | t :: ts => (c :: t) :: ts
      | [] => [[c]]

/-- The response-decoding step of `fetchSnapshotFromSource`, with the host
`JSON.parse` as an oracle (`none` models a thrown `SyntaxError`): try a
whole-payload parse; on failure parse each non-blank line independently,
skipping lines that fail; throw only when no line parsed. -/
def decodeChunk (jsonParse : List Char → Option Json) (text : List Char) :
    Except Unit Json :=
  match jsonParse text with
  | some v => .ok v
  | none =>
    let lines := (splitNewlines text).filter (fun l => 0 < (jsTrim l).length)
    let parsed := lines.filterMap jsonParse
    if 0 < parsed.length then .ok (.arr parsed) else .error ()

/-! ### Call-sync utilities (`src/unnamed/part_001`)

`parseTimestamp` hands its transformed string to the host `Date`
constructor. The strings it produces are ISO-like
(`YYYY-MM-DDTHH:MM:SS[.fff]` plus `Z` / `±HH` / `±HHMM` / `±HH:MM`), which
the host parses to a UTC epoch-millisecond instant; `jsDateParse` below
models that (an offset-free string would be host-local time and never
arises here, so it parses to `none`). -/

/-- Read exactly `n` leading decimal digits; return their value and the
rest of the input. -/
def readDigits : Nat → List Char → Option (Nat × List Char)
  | 0, cs => some (0, cs)
  | n + 1, c :: cs =>
    if c.isDigit then
      match readDigits n cs with
      | some (v, rest) => some ((c.toNat - '0'.toNat) * 10 ^ n + v, rest)
      | none => none
    else none
  | _ + 1, [] => none

/-- Days from 1970-01-01 to the civil date `y-m-d` (proleptic Gregorian;
the standard era/day-of-era computation, valid for the CE years used
here). -/
def daysFromCivil (y m d : Nat) : Int :=
  let y' := if m ≤ 2 then y - 1 else y
  let era := y' / 400
  let yoe := y' - era * 400
  let mp := if 2 < m then m - 3 else m + 9
  let doy := (153 * mp + 2) / 5 + d - 1
  let doe := yoe * 365 + yoe / 4 - yoe / 100 + doy
  (era : Int) * 146097 + (doe : Int) - 719468

/-- The trailing UTC-offset part of a date-time string, in minutes:
`Z`, `±HH`, `±HHMM` or `±HH:MM` (the lenient host forms the code relies
on). Anything else, including a missing offset, is rejected. -/
def parseOffsetMinutes (cs : List Char) : Option Int :=
  match cs with
  | ['Z'] => some 0
  | sign :: rest =>
    if sign = '+' ∨ sign = '-' then
      let sgn : Int := if sign = '+' then 1 else -1
      match rest with
      | [h1, h2] =>
        match readDigits 2 [h1, h2] with
        | some (hh, []) => some (sgn * (hh * 60 : Nat))
        | _ => none
      | [h1, h2, m1, m2] =>
        match readDigits 2 [h1, h2], readDigits 2 [m1, m2] with
        | some (hh, []), some (mm, []) => some (sgn * (hh * 60 + mm : Nat))
        | _, _ => none
      | [h1, h2, ':', m1, m2] =>
        match readDigits 2 [h1, h2], readDigits 2 [m1, m2] with
        | some (hh, []), some (mm, []) => some (sgn * (hh * 60 + mm : Nat))
        | _, _ => none
      | _ => none
    else none
  | _ => none

/-- Model of the host `Date` parse, restricted to the shapes
`parseTimestamp` produces, returning UTC epoch milliseconds. -/
def jsDateParse (cs : List Char) : Option Int :=
  match readDigits 4 cs with
  | some (y, '-' :: r1) =>
    match readDigits 2 r1 with
    | some (mo, '-' :: r2) =>
      match readDigits 2 r2 with
      | some (d, 'T' :: r3) =>
        match readDigits 2 r3 with
        | some (h, ':' :: r4) =>
          match readDigits 2 r4 with
          | some (mi, ':' :: r5) =>
            match readDigits 2 r5 with
            | some (s, r6) =>
              let msRest : Option (Nat × List Char) :=
                match r6 with
                | '.' :: r7 =>
                  match readDigits 3 r7 with
                  | some (ms, r8) => some (ms, r8)
                  | none => none
                | _ => some (0, r6)
              match msRest with
              | some (ms, r9) =>
                match parseOffsetMinutes r9 with
                | some offMin =>
                  if 1 ≤ mo ∧ mo ≤ 12 ∧ 1 ≤ d ∧ d ≤ 31 ∧ h ≤ 24 ∧ mi ≤ 59 ∧ s ≤ 59 then
                    some (daysFromCivil y mo d * 86400000
                      + (h : Int) * 3600000 + (mi : Int) * 60000
                      + (s : Int) * 1000 + (ms : Int) - offMin * 60000)
                  else none
                | none => none
              | none => none
            | none => none
          | _ => none
        | _ => none
      | _ => none
    | _ => none
  | _ => none

/-- JS `timestamp.replace(' ', 'T')`: only the first space is replaced. -/
def replaceFirstSpace : List Char → List Char
  | [] => []
  | c :: cs => if c = ' ' then 'T' :: cs else c :: replaceFirstSpace cs

/-- JS `replace(/([+-]\d\x7b2\x7d):(\d\x7b2\x7d)$/, '$1$2')`: if the string
ends in a `±HH:MM` offset, drop the colon. -/
def fixOffsetColon (s : List Char) : List Char :=
  match s.reverse with
  | m2 :: m1 :: ':' :: h2 :: h1 :: sign :: rest =>
    if (sign = '+' ∨ sign = '-') ∧ m2.isDigit ∧ m1.isDigit ∧ h2.isDigit ∧ h1.isDigit then
      (m2 :: m1 :: h2 :: h1 :: sign :: rest).reverse
    else s
  | _ => s

/-- `parseTimestamp` from the callSync module: a string containing `+` or
ending in `Z` already carries a zone, so only space→`T` and the offset
colon are fixed; otherwise space→`T` and an explicit `Z` is appended
(explicit-UTC form). Returns the instant in epoch milliseconds. -/
def parseTimestamp (timestamp : String) : Option Int :=
  let cs := timestamp.data
  if cs.contains '+' ∨ (cs ≠ [] ∧ cs.getLast? = some 'Z') then
    jsDateParse (fixOffsetColon (replaceFirstSpace cs))
  else
    jsDateParse (replaceFirstSpace cs ++ ['Z'])

/-- `calculateCallOffset` from the callSync module: call start minus
session start, in milliseconds (`none` models an invalid-date `NaN`). -/
def calculateCallOffset (sessionStartTime callStartTime : String) : Option Int := do
  let sessionStart ← parseTimestamp sessionStartTime
  let callStart ← parseTimestamp callStartTime
  return callStart - sessionStart

/-- `isWithinCallPeriod` from the callSync module (both boundaries
inclusive). Times in milliseconds, modelled as rationals. -/
def isWithinCallPeriod (sessionCurrentTime callOffset callDuration : ℚ) : Bool :=
  callOffset ≤ sessionCurrentTime ∧ sessionCurrentTime ≤ callOffset + callDuration

/-- `calculateAudioPosition` from the callSync module: seconds into the
audio file for a given session time (0 before the call starts). -/
def calculateAudioPosition (sessionCurrentTime callOffset playbackSpeed : ℚ) : ℚ :=
  if sessionCurrentTime < callOffset then 0
  else ((sessionCurrentTime - callOffset) / playbackSpeed) / 1000

/-- `Math.abs`. -/
def jsAbs (x : ℚ) : ℚ := if x < 0 then -x else x

/-! ### Playback controller (`src/components/Player.tsx`)

The controller state the claims are about: the virtual clock
(`currentTime`), the recording span (`duration`), the post-seek re-basing
offset (`seekBaseTimeRef`), the `isPlaying` flag and the playback speed.
The model covers an initialized player (the handlers' early returns when
`replayerRef.current` is null or `firstEventTimestamp` is null are the
caller's responsibility). Times are integer milliseconds; a `NaN` or
non-numeric primitive reading is modelled as `none`. -/

structure PlayerState where
  currentTime : Int
  duration : Int
  seekBase : Option Int
  isPlaying : Bool
  playbackSpeed : Int
deriving Repr, DecidableEq

/-- One firing of the 500 ms `timeInterval` poll (when no seek is in
flight and the replayer exists): with a seek base `b`, a valid
non-negative primitive reading `t` is re-based to `b + t`, clamped back to
`b` when the sum leaves `[0, duration + 1000]`; without a seek base a
valid reading is taken verbatim and an invalid one leaves the time alone
(resetting only a negative stored time to 0). -/
def tick (s : PlayerState) (replayerTime : Option Int) : PlayerState :=
  match s.seekBase with
  | some b =>
    let rel : Int :=
      match replayerTime with
      | some t => if 0 ≤ t then t else 0
      | none => 0
    let actual := b + rel
    if 0 ≤ actual ∧ actual ≤ s.duration + 1000 then { s with currentTime := actual }
    else { s with currentTime := b }
  | none =>
    match replayerTime with
    | some t =>
      if 0 ≤ t then { s with currentTime := t }
      else if s.currentTime < 0 then { s with currentTime := 0 } else s
    | none =>
      if s.currentTime < 0 then { s with currentTime := 0 } else s

/-- `e?.type === 2 || e?.type === '2'`. -/
def isFullStateEvent (e : Json) : Bool :=
  e.get "type" = some (.num 2) || e.get "type" = some (.str "2")

/-- `handleSeek`'s prefix filter: falsy events and events with a falsy
`timestamp` are excluded, the rest kept when `timestamp ≤ target`.
(Timestamps are numeric in this wire format; a non-numeric truthy
timestamp would go through JS coercion and is out of the model.) -/
def eventBeforeTarget (targetTimestamp : Int) (e : Json) : Bool :=
  match e with
  | .obj fs =>
    match jlookup fs "timestamp" with
    | some (.num t) => t ≠ 0 && t ≤ targetTimestamp
    | _ => false
  | _ => false

/-- `handleSeek`'s prefix construction: all events up to
`firstEventTimestamp + timeInMs`, re-ordered so a FullSnapshot (if any)
comes first. -/
def seekSortedEvents (events : List Json) (firstEventTimestamp timeInMs : Int) :
    List Json :=
  let targetTimestamp := firstEventTimestamp + timeInMs
  let eventsUpToTarget := events.filter (eventBeforeTarget targetTimestamp)
  match eventsUpToTarget.find? isFullStateEvent with
  | some fullSnapshot =>
    fullSnapshot :: eventsUpToTarget.filter (fun e => ¬ isFullStateEvent e)
  | none => eventsUpToTarget

/-- `recreateReplayerAtPosition`'s prefix extension: a too-short prefix is
extended to the FullSnapshot plus the event right after it in the full
list (the FullSnapshot being located by identity). -/
def extendPrefix (allEvents : List Json) (eventsToApply : List Json) : List Json :=
  if eventsToApply.length < 2 then
    match eventsToApply.find? isFullStateEvent with
    | some fullSnapshot =>
      if 1 < allEvents.length then
        match allEvents.findIdx? (fun e => e = fullSnapshot) with
        | some idx =>
          if idx < allEvents.length - 1 then
            match allEvents[idx + 1]? with
            | some nextEvent => [fullSnapshot, nextEvent]
            | none => eventsToApply
          else eventsToApply
        | none => eventsToApply
      else eventsToApply
    | none => eventsToApply
  else eventsToApply

/-- `recreateReplayerAtPosition`: extend a too-short prefix; if still
fewer than two events remain, log and bail out without touching the
state; otherwise tear down and rebuild the primitive, set the seek base to
`targetTime` and report `targetTime` as the current time. -/
def recreateReplayerAtPosition (allEvents : List Json) (eventsToApply : List Json)
    (targetTime : Int) (s : PlayerState) : PlayerState :=
  let extended := extendPrefix allEvents eventsToApply
  if extended.length < 2 then s
  else { s with seekBase := some targetTime, currentTime := targetTime }

/-- `handleSeek` on an initialized player: bail out on an empty event
list; otherwise immediately force `isPlaying` to false, pause the
primitive and audio, build the prefix and recreate the primitive at
`timeInMs`. -/
def handleSeek (events : List Json) (firstEventTimestamp timeInMs : Int)
    (s : PlayerState) : PlayerState :=
  if events.length = 0 then s
  else
    let s1 := { s with isPlaying := false }
    let sorted := seekSortedEvents events firstEventTimestamp timeInMs
    recreateReplayerAtPosition events sorted timeInMs s1

/-- Initial primitive creation during `load` (`initializePlayer`): the
virtual clock restarts at 0 and the seek base is cleared. -/
def loadStep (s : PlayerState) : PlayerState :=
  { s with currentTime := 0, seekBase := none }

/-- The operations that can touch `isPlaying`: the primitive's lifecycle
notifications and the user-triggered handlers. -/
inductive PlayerOp where
  | primStart : PlayerOp
  | primPause : PlayerOp
  | primFinish : PlayerOp
  | userPlay : PlayerOp
  | userPause : PlayerOp
  | userSeek : List Json → Int → Int → PlayerOp
  | userSetRate : Int → PlayerOp

/-- The controller's reaction to each operation, as written in
`Player.tsx`: the `start`/`pause`/`finish` listeners are the only writers
of `isPlaying` except for `handleSeek`, which forces it to false
directly; `handlePlayPause` only calls the primitive's `play()`/`pause()`
(the flag follows via the lifecycle callbacks), and `handleSpeedChange`
reconfigures the primitive in place. -/
def step (s : PlayerState) : PlayerOp → PlayerState
  | .primStart => { s with isPlaying := true }
  | .primPause => { s with isPlaying := false }
  | .primFinish => { s with isPlaying := false }
  | .userPlay => s
  | .userPause => s
  | .userSeek events firstTs t => handleSeek events firstTs t s
  | .userSetRate r => { s with playbackSpeed := r }

/-! ### Audio sync controller (`Player.tsx`, the sync `useEffect`) -/

/-- One evaluation of the audio-sync effect's position logic, returning
the value written to `audio.currentTime` (`none` when no write happens).
Inside the call window the write is guarded by the drift threshold
(over 0.5 s), the forward-or-large-backward condition (over 2 s) and the
distinct-from-last-set threshold (over 0.1 s); outside the window the
position snaps to 0 (well before the call) or to the end of the audio,
each only once. `audioDur` is the resolved `audio.duration || 0`. -/
def audioSyncWrite (currentTime callOffset callDuration playbackSpeed
    audioCur lastSet audioDur : ℚ) : Option ℚ :=
  if isWithinCallPeriod currentTime callOffset callDuration then
    let audioPosition := calculateAudioPosition currentTime callOffset playbackSpeed
    let timeDiff := audioPosition - audioCur
    let positionDiff := jsAbs (audioPosition - lastSet)
    if 1/2 < jsAbs timeDiff ∧ (0 < timeDiff ∨ 2 < jsAbs timeDiff) ∧ 1/10 < positionDiff then
      some audioPosition
    else none
  else if currentTime < callOffset - 100 then
    if 1/10 < audioCur ∧ lastSet ≠ 0 then some 0 else none
  else if callOffset + callDuration < currentTime then
    if audioCur < audioDur - 1/10 ∧ lastSet ≠ audioDur then some audioDur else none
  else none

/-- Is a JS value a string? -/
def isStringValue : Json → Bool
  | .str _ => true
  | _ => false

/-- Is a JS value an array (`Array.isArray`)? -/
def isArrayValue : Json → Bool
  | .arr _ => true
  | _ => false

/-- A `pako.inflate` oracle that always throws (never consulted by the
test inputs that use it). -/
def inflNone : List Nat → Option String := fun _ => none

/-- A `JSON.parse` oracle that always throws. -/
def parseNone : String → Option Json := fun _ => none

/-- A `JSON.parse` oracle (over raw text) that always throws; consistent
with the host behaviour on the empty payload, where `JSON.parse` raises a
`SyntaxError`. -/
def parseNoneL : List Char → Option Json := fun _ => none

/-- A concrete `JSON.parse` oracle knowing just the payloads the test
inputs contain: `"[]"` parses to the empty array. -/
def parseArrTest : String → Option Json :=
  fun s => if s = "[]" then some (.arr []) else none

/-- A concrete raw-text `JSON.parse` oracle for the decoder tests: the
single line `1` parses to the number 1, everything else throws. -/
def parseLineTest : List Char → Option Json :=
  fun l => if l = ['1'] then some (.num 1) else none

/-! ### Helper lemmas and concrete test inputs -/

/-- Reading back the key just assigned yields the assigned value. -/
theorem jlookup_jset_self (fs : List (String × Json)) (k : String) (v : Json) :
    jlookup (jset fs k v) k = some v := by
  induction fs with
  | nil => simp [jset, jlookup]
  | cons p rest ih =>
    obtain ⟨k', w⟩ := p
    by_cases h : k' = k
    · simp [jset, h, jlookup]
    · simp [jset, h, jlookup, ih]

/-- Assigning one key does not disturb another. -/
theorem jlookup_jset_ne (fs : List (String × Json)) (k k' : String) (v : Json)
    (h : k' ≠ k) : jlookup (jset fs k v) k' = jlookup fs k' := by
  induction fs with
  | nil => simp [jset, jlookup, Ne.symm h]
  | cons p rest ih =>
    obtain ⟨a, w⟩ := p
    by_cases ha : a = k
    · subst ha
      simp [jset, jlookup, Ne.symm h]
    · simp [jset, ha, jlookup, ih]

/-- After the coercion stage the field is always an array. -/
theorem ensureArrayField_isArray (data : List (String × Json)) (f : String) :
    ∃ xs, jlookup (ensureArrayField data f) f = some (.arr xs) := by
  unfold ensureArrayField
  cases h : jlookup data f with
  | none => exact ⟨[], by simp [h, jlookup_jset_self]⟩
  | some v =>
    cases v with
    | arr xs => exact ⟨xs, by simp [h]⟩
    | null => exact ⟨[], by simp [h, jlookup_jset_self]⟩
    | bool b => exact ⟨[], by simp [h, jlookup_jset_self]⟩
    | num n => exact ⟨[], by simp [h, jlookup_jset_self]⟩
    | str s => exact ⟨[], by simp [h, jlookup_jset_self]⟩
    | obj o => exact ⟨[], by simp [h, jlookup_jset_self]⟩

/-- The coercion stage only touches its own field. -/
theorem jlookup_ensureArrayField_ne (data : List (String × Json)) (f k : String)
    (h : k ≠ f) : jlookup (ensureArrayField data f) k = jlookup data k := by
  unfold ensureArrayField
  cases hv : jlookup data f with
  | none => simp [jlookup_jset_ne _ _ _ _ h]
  | some v => cases v <;> simp [jlookup_jset_ne _ _ _ _ h]

/-- The string-parsing stage only touches its own field. -/
theorem jlookup_parseStringField_ne (inflate : List Nat → Option String)
    (jsonParse : String → Option Json) (data : List (String × Json)) (f k : String)
    (h : k ≠ f) :
    jlookup (parseStringField inflate jsonParse data f) k = jlookup data k := by
  unfold parseStringField
  cases hv : jlookup data f with
  | none => rfl
  | some v =>
    cases v with
    | str s =>
      by_cases hs : s = ""
      · simp [hs]
      · by_cases hc : isCompressed s
        · simp [hs, hc, jlookup_jset_ne _ _ _ _ h]
        · cases hp : jsonParse s <;> simp [hs, hc, hp, jlookup_jset_ne _ _ _ _ h]
    | null => rfl
    | bool b => rfl
    | num n => rfl
    | arr xs => rfl
    | obj o => rfl

/-- A whole field-loop iteration only touches its own field. -/
theorem jlookup_processField_ne (inflate : List Nat → Option String)
    (jsonParse : String → Option Json) (data : List (String × Json)) (f k : String)
    (h : k ≠ f) :
    jlookup (processField inflate jsonParse data f) k = jlookup data k := by
  unfold processField
  rw [jlookup_ensureArrayField_ne _ _ _ h, jlookup_parseStringField_ne _ _ _ _ _ h]

/-- After its own field-loop iteration, a field is always an array. -/
theorem jlookup_processField_isArray (inflate : List Nat → Option String)
    (jsonParse : String → Option Json) (data : List (String × Json)) (f : String) :
    ∃ xs, jlookup (processField inflate jsonParse data f) f = some (.arr xs) := by
  unfold processField
  exact ensureArrayField_isArray _ f

/-- An absent field comes out of its field-loop iteration as the empty
array. -/
theorem jlookup_processField_absent (inflate : List Nat → Option String)
    (jsonParse : String → Option Json) (data : List (String × Json)) (f : String)
    (h : jlookup data f = none) :
    jlookup (processField inflate jsonParse data f) f = some (.arr []) := by
  unfold processField parseStringField ensureArrayField
  simp [h, jlookup_jset_self]


/-- A non-string, non-array field comes out of its field-loop iteration as
the empty array. -/
theorem jlookup_processField_other (inflate : List Nat → Option String)
    (jsonParse : String → Option Json) (data : List (String × Json)) (f : String)
    (v : Json) (h : jlookup data f = some v)
    (hs : isStringValue v = false) (ha : isArrayValue v = false) :
    jlookup (processField inflate jsonParse data f) f = some (.arr []) := by
  unfold processField parseStringField ensureArrayField
  cases v <;> simp_all [isStringValue, isArrayValue, jlookup_jset_self]


/-! ### Claim theorems -/

/-- C6: `isCompressed` returns true exactly when the string's first two
characters, as raw byte values, are the gzip magic `0x1F 0x8B`; it
returns false on every other string, in particular on the empty string
and on every single-character string. -/
theorem c6_isCompressed_characterization :
    (∀ (c0 c1 : Char) (rest : List Char),
      isCompressed (String.mk (c0 :: c1 :: rest)) =
        (decide (c0.toNat = 0x1F) && decide (c1.toNat = 0x8B)))
    ∧ isCompressed "" = false
    ∧ (∀ c : Char, isCompressed (String.mk [c]) = false) :=
  ⟨fun _ _ _ => rfl, rfl, fun _ => rfl⟩

/-- C9: both accepted wall-clock forms (explicit offset, and offset-free
explicit UTC) are normalized to the same instant, and the documented
scenario holds: the call offset between `2025-09-02 20:21:51.526+00` and
`2025-09-02 20:22:00.227` is 8701 milliseconds. -/
theorem c9_calculateCallOffset_scenario :
    calculateCallOffset "2025-09-02 20:21:51.526+00" "2025-09-02 20:22:00.227"
        = some 8701
    ∧ parseTimestamp "2025-09-02 20:21:51.526+00"
        = parseTimestamp "2025-09-02 20:21:51.526" := by
  decide

/-- C5: unwrapping the tuple `[sid, e]` yields exactly the same event as
normalizing the bare object `e` whenever `e` carries a `type` key (for
every session id value), and a resolved object without a `type` key is
silently dropped (`none`), in tuple form and bare form alike. -/
theorem c5_normalize_tuple_eq_bare (sid : Json) (fs : List (String × Json)) :
    ((fs.any (fun p => p.1 = "type")) = true →
      extractEvent (.arr [sid, .obj fs]) = extractEvent (.obj fs)
      ∧ extractEvent (.obj fs) = some (.obj fs))
    ∧ ((fs.any (fun p => p.1 = "type")) = false →
      extractEvent (.arr [sid, .obj fs]) = none ∧ extractEvent (.obj fs) = none) := by
  constructor
  · intro h
    constructor
    · simp [extractEvent, hasTypeKey, h]
    · simp [extractEvent, h]
  · intro h
    constructor
    · simp [extractEvent, hasTypeKey, h]
    · simp [extractEvent, h]

/-- Witness for C5 at concrete inputs: a tuple-wrapped kind-2 event equals
its bare normalization, and an object without a `type` key is dropped. -/
theorem c5_normalize_tuple_eq_bare_witness :
    extractEvent (.arr [.str "sid", .obj [("type", Json.num 2)]])
      = extractEvent (.obj [("type", Json.num 2)])
    ∧ extractEvent (.obj [("x", Json.null)]) = none :=
  ⟨((c5_normalize_tuple_eq_bare (.str "sid") [("type", Json.num 2)]).1 (by decide)).1,
   ((c5_normalize_tuple_eq_bare (.str "sid") [("x", Json.null)]).2 (by decide)).2⟩

/-- C1 (counterexample): a source list whose single chunk decodes to one
kind-3 event — so no FullState is present anywhere — does **not** make
`fetchSessionData` fail; the processed event sequence is returned and the
missing FullState is only logged. -/
theorem c1_counterexample_returns_events :
    fetchSessionData inflNone parseNone
        [Json.arr [Json.obj [("type", Json.num 3), ("timestamp", Json.num 5)]]]
      = .ok [Json.obj [("type", Json.num 3), ("timestamp", Json.num 5)]]
    ∧ hasFullState [Json.obj [("type", Json.num 3), ("timestamp", Json.num 5)]]
      = false :=
  ⟨rfl, rfl⟩

/-- C1 (amended): `fetchSessionData` fails (`NoSourcesError`) on an empty
source list, and on every non-empty source list it returns the processed
event sequence — a missing FullState never turns into an error. -/
theorem c1_no_full_state_only_logged (inflate : List Nat → Option String)
    (jsonParse : String → Option Json) (chunks : List Json) (h : chunks ≠ []) :
    fetchSessionData inflate jsonParse [] = .error .noSources
    ∧ ∃ events, fetchSessionData inflate jsonParse chunks = .ok events := by
  have h0 : ¬ chunks.length = 0 := by simpa using h
  refine ⟨rfl,
    ⟨((chunks.map flattenChunk).flatten.filterMap extractEvent).map
      (processEvent inflate jsonParse), ?_⟩⟩
  unfold fetchSessionData
  rw [if_neg h0]

/-- Witness for C1 (amended) at a concrete input: one chunk with a single
kind-4 event. -/
theorem c1_no_full_state_only_logged_witness :
    fetchSessionData inflNone parseNone [] = .error .noSources
    ∧ ∃ events,
        fetchSessionData inflNone parseNone
          [Json.arr [Json.obj [("type", Json.num 4)]]] = .ok events :=
  c1_no_full_state_only_logged inflNone parseNone
    [Json.arr [Json.obj [("type", Json.num 4)]]] (by decide)

/-- C7 (counterexample): the decoder also fails on the **empty** payload —
the whole-payload parse throws (as the host `JSON.parse` does on `""`) and
there are no non-blank lines — contradicting "fails only ... from a
non-empty payload". -/
theorem c7_counterexample_empty_payload :
    decodeChunk parseNoneL [] = .error () ∧ ([] : List Char).length = 0 :=
  ⟨rfl, rfl⟩

/-- C7 (amended): the decoder first tries a whole-payload parse and
returns its result on success; when that parse throws, it returns exactly
the successfully parsed non-blank lines if there are any, and fails
precisely when no line parses — which includes the empty payload. -/
theorem c7_decode_fallback (jsonParse : List Char → Option Json) (text : List Char) :
    (∀ v, jsonParse text = some v → decodeChunk jsonParse text = .ok v)
    ∧ (jsonParse text = none →
        (((splitNewlines text).filter (fun l => 0 < (jsTrim l).length)).filterMap jsonParse ≠ [] →
          decodeChunk jsonParse text =
            .ok (.arr (((splitNewlines text).filter
              (fun l => 0 < (jsTrim l).length)).filterMap jsonParse)))
        ∧ (((splitNewlines text).filter (fun l => 0 < (jsTrim l).length)).filterMap jsonParse = [] →
          decodeChunk jsonParse text = .error ())) := by
  constructor
  · intro v hv
    unfold decodeChunk
    rw [hv]
  · intro hnone
    constructor
    · intro hne
      have hlen : 0 < (((splitNewlines text).filter
          (fun l => 0 < (jsTrim l).length)).filterMap jsonParse).length :=
        List.length_pos.mpr hne
      simp only [decodeChunk, hnone]
      rw [if_pos hlen]
    · intro hnil
      simp only [decodeChunk, hnone]
      simp [hnil]

/-- Witness for C7 (amended) at concrete inputs: the payload `a\n1` fails
the whole parse, its blank-free lines are `a` and `1`, only `1` parses,
and the decoder returns `[1]`. -/
theorem c7_decode_fallback_witness :
    decodeChunk parseLineTest ['a', '\n', '1'] = .ok (.arr [.num 1]) :=
  (((c7_decode_fallback parseLineTest ['a', '\n', '1']).2 (by decide)).1 (by decide)).trans
    rfl

/-- `recreateReplayerAtPosition` never touches the `isPlaying` flag
(pausing is `handleSeek`'s doing). -/
theorem recreateReplayerAtPosition_isPlaying (allEvents eventsToApply : List Json)
    (targetTime : Int) (s : PlayerState) :
    (recreateReplayerAtPosition allEvents eventsToApply targetTime s).isPlaying
      = s.isPlaying := by
  simp only [recreateReplayerAtPosition]
  split <;> rfl

/-- C2 (counterexample): with seek base 100 over a zero-length recording,
a polled primitive time of 5000 reports virtual time 100 — not
`seekBaseMs + primitiveReportedTime = 5100` — because the sum exceeds
`duration + 1000` and the tick falls back to the bare base. -/
theorem c2_counterexample_rebase_clamped :
    ((tick { currentTime := 100, duration := 0, seekBase := some 100,
             isPlaying := false, playbackSpeed := 1 } (some 5000)).currentTime = 100)
    ∧ ¬ ((tick { currentTime := 100, duration := 0, seekBase := some 100,
                 isPlaying := false, playbackSpeed := 1 } (some 5000)).currentTime
          = 100 + 5000) := by
  decide

/-- C2 (amended): a successful seek (at least two events in the rebuilt
prefix) immediately reports virtual time `t` and records `seekBaseMs = t`,
whatever the prior play state; each later poll of a valid primitive time
`rt` reports `seekBaseMs + rt` provided that sum stays within
`[0, duration + 1000]` (outside it the bare base is reported); polling
never clears the seek base, and only a fresh `load` resets time to 0 with
no seek base. -/
theorem c2_seek_rebase_invariant (events : List Json) (firstTs t : Int)
    (s : PlayerState) (hlen : 2 ≤ (seekSortedEvents events firstTs t).length) :
    ((handleSeek events firstTs t s).currentTime = t
      ∧ (handleSeek events firstTs t s).seekBase = some t)
    ∧ (∀ (s' : PlayerState) (b rt : Int), s'.seekBase = some b → 0 ≤ rt →
        0 ≤ b + rt → b + rt ≤ s'.duration + 1000 →
        (tick s' (some rt)).currentTime = b + rt)
    ∧ (∀ (s' : PlayerState) (rt : Option Int), (tick s' rt).seekBase = s'.seekBase)
    ∧ (∀ s' : PlayerState,
        (loadStep s').currentTime = 0 ∧ (loadStep s').seekBase = none) := by
  have hne : ¬ events.length = 0 := by
    intro h0
    rw [List.length_eq_zero] at h0
    subst h0
    simp [seekSortedEvents] at hlen
  have h2 : ¬ (seekSortedEvents events firstTs t).length < 2 := by omega
  refine ⟨?_, ?_, ?_, fun s' => ⟨rfl, rfl⟩⟩
  · constructor <;>
      simp [handleSeek, recreateReplayerAtPosition, extendPrefix, hne, h2]
  · intro s' b rt hsb hrt h0 h1
    simp [tick, hsb, hrt, h0, h1]
  · intro s' rt
    obtain ⟨ct, dur, sb, ip, ps⟩ := s'
    cases sb <;> cases rt <;> simp only [tick] <;> (repeat' split) <;> rfl

/-- Witness for C2 (amended): seeking to 600 ms in a two-event recording
reports 600 ms at once, and a later poll of 50 ms reports 150 ms from a
seek base of 100 ms. -/
theorem c2_seek_rebase_invariant_witness :
    (handleSeek
        [Json.obj [("type", Json.num 2), ("timestamp", Json.num 1000)],
         Json.obj [("type", Json.num 3), ("timestamp", Json.num 1500)]] 1000 600
        { currentTime := 0, duration := 500, seekBase := none,
          isPlaying := true, playbackSpeed := 1 }).currentTime = 600
    ∧ (tick { currentTime := 100, duration := 10000, seekBase := some 100,
              isPlaying := false, playbackSpeed := 1 } (some 50)).currentTime = 150 :=
  ⟨(c2_seek_rebase_invariant
      [Json.obj [("type", Json.num 2), ("timestamp", Json.num 1000)],
       Json.obj [("type", Json.num 3), ("timestamp", Json.num 1500)]] 1000 600
      { currentTime := 0, duration := 500, seekBase := none,
        isPlaying := true, playbackSpeed := 1 } (by decide)).1.1,
   (c2_seek_rebase_invariant
      [Json.obj [("type", Json.num 2), ("timestamp", Json.num 1000)],
       Json.obj [("type", Json.num 3), ("timestamp", Json.num 1500)]] 1000 600
      { currentTime := 0, duration := 500, seekBase := none,
        isPlaying := true, playbackSpeed := 1 } (by decide)).2.1
     { currentTime := 100, duration := 10000, seekBase := some 100,
       isPlaying := false, playbackSpeed := 1 } 100 50 rfl (by decide) (by decide)
     (by decide)⟩

/-- C3 (counterexample): the user-triggered seek handler sets `isPlaying`
to false directly — with no lifecycle notification involved — so a playing
state becomes non-playing purely from the user action. -/
theorem c3_counterexample_seek_writes_isPlaying :
    ({ currentTime := 0, duration := 1000, seekBase := none,
       isPlaying := true, playbackSpeed := 1 } : PlayerState).isPlaying = true
    ∧ (step { currentTime := 0, duration := 1000, seekBase := none,
              isPlaying := true, playbackSpeed := 1 }
        (.userSeek [Json.obj [("type", Json.num 2), ("timestamp", Json.num 1)]]
          1 0)).isPlaying = false := by
  decide

/-- C3 (amended): the lifecycle notifications `start`/`pause`/`finish` set
`isPlaying` to true/false/false; the user play, pause and rate-change
handlers never write the flag (they only drive the primitive); the seek
handler is the one exception, forcing `isPlaying` to false directly. -/
theorem c3_isPlaying_only_lifecycle_except_seek (s : PlayerState) :
    (step s .primStart).isPlaying = true
    ∧ (step s .primPause).isPlaying = false
    ∧ (step s .primFinish).isPlaying = false
    ∧ (step s .userPlay).isPlaying = s.isPlaying
    ∧ (step s .userPause).isPlaying = s.isPlaying
    ∧ (∀ r, (step s (.userSetRate r)).isPlaying = s.isPlaying)
    ∧ (∀ events firstTs t, events ≠ [] →
        (step s (.userSeek events firstTs t)).isPlaying = false) := by
  refine ⟨rfl, rfl, rfl, rfl, rfl, fun r => rfl, ?_⟩
  intro events firstTs t hne
  show (handleSeek events firstTs t s).isPlaying = false
  unfold handleSeek
  rw [if_neg (by simpa using hne), recreateReplayerAtPosition_isPlaying]

/-- Witness for C3 (amended): play leaves the flag to the lifecycle, while
a seek on a one-event list forces it to false. -/
theorem c3_isPlaying_only_lifecycle_except_seek_witness :
    (step { currentTime := 0, duration := 1000, seekBase := none,
            isPlaying := true, playbackSpeed := 1 } .userPlay).isPlaying = true
    ∧ (step { currentTime := 0, duration := 1000, seekBase := none,
              isPlaying := true, playbackSpeed := 1 }
        (.userSeek [Json.obj [("type", Json.num 4), ("timestamp", Json.num 7)]]
          7 0)).isPlaying = false :=
  ⟨((c3_isPlaying_only_lifecycle_except_seek
      { currentTime := 0, duration := 1000, seekBase := none,
        isPlaying := true, playbackSpeed := 1 }).2.2.2.1).trans rfl,
   (c3_isPlaying_only_lifecycle_except_seek
      { currentTime := 0, duration := 1000, seekBase := none,
        isPlaying := true, playbackSpeed := 1 }).2.2.2.2.2.2
     [Json.obj [("type", Json.num 4), ("timestamp", Json.num 7)]] 7 0 (by decide)⟩

/-- C8: while the virtual time lies inside the call window, the audio-sync
effect writes a position exactly when the drift from the computed target
exceeds 0.5 s, the move is forward or a backward jump beyond 2 s, and the
target differs by more than 0.1 s from the last position this controller
wrote — and what it writes is exactly the computed target. -/
theorem c8_audio_sync_guard
    (ct off dur speed audioCur lastSet audioDur : ℚ)
    (h : isWithinCallPeriod ct off dur = true) :
    audioSyncWrite ct off dur speed audioCur lastSet audioDur =
      (if 1/2 < jsAbs (calculateAudioPosition ct off speed - audioCur)
          ∧ (0 < calculateAudioPosition ct off speed - audioCur
              ∨ 2 < jsAbs (calculateAudioPosition ct off speed - audioCur))
          ∧ 1/10 < jsAbs (calculateAudioPosition ct off speed - lastSet)
        then some (calculateAudioPosition ct off speed)
        else none) := by
  unfold audioSyncWrite
  rw [if_pos h]

/-- Witness for C8: inside the window with target 12 s, audio at 10 s and
last-set 10 s, all three guard conditions hold and 12 s is written. -/
theorem c8_audio_sync_guard_witness :
    audioSyncWrite 12000 0 100000 1 10 10 0 = some 12 := by
  rw [c8_audio_sync_guard 12000 0 100000 1 10 10 0 (by norm_num [isWithinCallPeriod])]
  norm_num [calculateAudioPosition, jsAbs]

/-- C4 (code bug evaluation): a kind-3 event with the numeric-string tag
`'3'` is dispatched to `processMutationEvent` by `fetchSessionData`, but
the strict guard `event.type !== 3` there rejects it, so the event — and
its string-valued `removes` sub-list — comes back unchanged; the same
payload under the numeric tag `3` has all four sub-lists materialized as
arrays (the `removes` string `"[]"` is JSON-parsed). -/
theorem c4_string_tag_skips_decompression :
    processEvent inflNone parseArrTest
        (Json.obj [("type", Json.str "3"), ("data", Json.obj [("removes", Json.str "[]")])])
      = Json.obj [("type", Json.str "3"), ("data", Json.obj [("removes", Json.str "[]")])]
    ∧ processEvent inflNone parseArrTest
        (Json.obj [("type", Json.num 3), ("data", Json.obj [("removes", Json.str "[]")])])
      = Json.obj [("type", Json.num 3),
          ("data", Json.obj [("removes", Json.arr []), ("adds", Json.arr []),
            ("texts", Json.arr []), ("attributes", Json.arr [])])] :=
  ⟨rfl, rfl⟩

/-- C10: for a numeric kind-3 event with an object payload, every one of
the four sub-list fields of the processed event is an array; a field that
is absent from the input payload, or holds a non-string non-array value,
comes out as exactly the empty array. -/
theorem c10_sublists_materialized (inflate : List Nat → Option String)
    (jsonParse : String → Option Json) (fs ds : List (String × Json))
    (htype : jlookup fs "type" = some (.num 3))
    (hdata : jlookup fs "data" = some (.obj ds)) :
    (∀ f ∈ mutationFields, ∃ xs,
        ((processMutationEvent inflate jsonParse (.obj fs)).get "data").bind
          (fun d => d.get f) = some (.arr xs))
    ∧ (∀ f ∈ mutationFields, jlookup ds f = none →
        ((processMutationEvent inflate jsonParse (.obj fs)).get "data").bind
          (fun d => d.get f) = some (.arr []))
    ∧ (∀ f ∈ mutationFields, ∀ v, jlookup ds f = some v →
        isStringValue v = false → isArrayValue v = false →
        ((processMutationEvent inflate jsonParse (.obj fs)).get "data").bind
          (fun d => d.get f) = some (.arr [])) := by
  have hres : processMutationEvent inflate jsonParse (.obj fs)
      = .obj (jset fs "data"
          (.obj (mutationFields.foldl (processField inflate jsonParse) ds))) := by
    simp [processMutationEvent, htype, hdata, jsTruthy]
  have hx : ∀ f, ((processMutationEvent inflate jsonParse (.obj fs)).get "data").bind
      (fun d => d.get f)
      = jlookup (mutationFields.foldl (processField inflate jsonParse) ds) f := by
    intro f
    rw [hres]
    show (jlookup (jset fs "data" _) "data").bind _ = _
    rw [jlookup_jset_self]
    rfl
  have expand : mutationFields.foldl (processField inflate jsonParse) ds
      = processField inflate jsonParse (processField inflate jsonParse
          (processField inflate jsonParse
            (processField inflate jsonParse ds "removes") "adds") "texts")
          "attributes" := rfl
  refine ⟨?_, ?_, ?_⟩
  · intro f hf
    rw [hx f, expand]
    simp only [mutationFields, List.mem_cons, List.not_mem_nil, or_false] at hf
    rcases hf with rfl | rfl | rfl | rfl
    · rw [jlookup_processField_ne _ _ _ _ _ (by decide),
          jlookup_processField_ne _ _ _ _ _ (by decide),
          jlookup_processField_ne _ _ _ _ _ (by decide)]
      exact jlookup_processField_isArray _ _ _ _
    · rw [jlookup_processField_ne _ _ _ _ _ (by decide),
          jlookup_processField_ne _ _ _ _ _ (by decide)]
      exact jlookup_processField_isArray _ _ _ _
    · rw [jlookup_processField_ne _ _ _ _ _ (by decide)]
      exact jlookup_processField_isArray _ _ _ _
    · exact jlookup_processField_isArray _ _ _ _
  · intro f hf habs
    rw [hx f, expand]
    simp only [mutationFields, List.mem_cons, List.not_mem_nil, or_false] at hf
    rcases hf with rfl | rfl | rfl | rfl
    · rw [jlookup_processField_ne _ _ _ _ _ (by decide),
          jlookup_processField_ne _ _ _ _ _ (by decide),
          jlookup_processField_ne _ _ _ _ _ (by decide)]
      exact jlookup_processField_absent _ _ _ _ habs
    · rw [jlookup_processField_ne _ _ _ _ _ (by decide),
          jlookup_processField_ne _ _ _ _ _ (by decide)]
      exact jlookup_processField_absent _ _ _ _
        (by rw [jlookup_processField_ne _ _ _ _ _ (by decide)]; exact habs)
    · rw [jlookup_processField_ne _ _ _ _ _ (by decide)]
      exact jlookup_processField_absent _ _ _ _
        (by rw [jlookup_processField_ne _ _ _ _ _ (by decide),
                jlookup_processField_ne _ _ _ _ _ (by decide)]; exact habs)
    · exact jlookup_processField_absent _ _ _ _
        (by rw [jlookup_processField_ne _ _ _ _ _ (by decide),
                jlookup_processField_ne _ _ _ _ _ (by decide),
                jlookup_processField_ne _ _ _ _ _ (by decide)]; exact habs)
  · intro f hf v hv hs ha
    rw [hx f, expand]
    simp only [mutationFields, List.mem_cons, List.not_mem_nil, or_false] at hf
    rcases hf with rfl | rfl | rfl | rfl
    · rw [jlookup_processField_ne _ _ _ _ _ (by decide),
          jlookup_processField_ne _ _ _ _ _ (by decide),
          jlookup_processField_ne _ _ _ _ _ (by decide)]
      exact jlookup_processField_other _ _ _ _ _ hv hs ha
    · rw [jlookup_processField_ne _ _ _ _ _ (by decide),
          jlookup_processField_ne _ _ _ _ _ (by decide)]
      exact jlookup_processField_other _ _ _ _ _
        (by rw [jlookup_processField_ne _ _ _ _ _ (by decide)]; exact hv) hs ha
    · rw [jlookup_processField_ne _ _ _ _ _ (by decide)]
      exact jlookup_processField_other _ _ _ _ _
        (by rw [jlookup_processField_ne _ _ _ _ _ (by decide),
                jlookup_processField_ne _ _ _ _ _ (by decide)]; exact hv) hs ha
    · exact jlookup_processField_other _ _ _ _ _
        (by rw [jlookup_processField_ne _ _ _ _ _ (by decide),
                jlookup_processField_ne _ _ _ _ _ (by decide),
                jlookup_processField_ne _ _ _ _ _ (by decide)]; exact hv) hs ha

/-- Witness for C10: a numeric kind-3 event with an empty payload object
gets a `removes` field materialized as the empty array. -/
theorem c10_sublists_materialized_witness :
    ((processMutationEvent inflNone parseNone
        (.obj [("type", Json.num 3), ("data", Json.obj [])])).get "data").bind
      (fun d => d.get "removes") = some (.arr []) :=
  (c10_sublists_materialized inflNone parseNone
      [("type", Json.num 3), ("data", Json.obj [])] [] rfl rfl).2.1
    "removes" (by decide) rfl
